import Mathlib

/-!
# foros: the example data store and the Raft state dispatcher

A shallow embedding of

* `MyDataInterface` and `main` of
  `foros_examples/src/cluster_data_replication_by_commit.cpp`,
* `State::Handle` of `fsros/src/raft/state.cpp`,
* the two overloads of `NodeClusterImpl::Handle` of
  `fsros/src/node_cluster_impl.cpp`,
* `StateMachine::initialize_clients` of `fsros/src/raft/state_machine.cpp`,

followed by the properties established about them.

Conventions of the embedding.

* `uint32_t` and `uint64_t` values are natural numbers; an operation that can
  leave the range of its type reduces modulo `2 ^ 32` explicitly.
* `std::map<uint64_t, Data::SharedPtr>` is a function `Nat → Option Data`.
  `none` stands both for a key that is absent and for a key bound to a null
  pointer: `operator[]` answers a null pointer for either, and the class
  never asks the map for its size, never iterates and never calls `find`.
* Dereferencing a null pointer and reading the first byte of an empty
  payload are undefined behaviour.  A member function whose execution does
  either has no result: it yields `none`.  Every member function therefore
  returns an `Option`.
* Text written to `std::cout` / `std::cerr` is not part of the state.
-/

namespace Foros

/-- Number of values of a `uint32_t`. -/
def UINT32_RANGE : Nat := 4294967296

/-- Modelled from the spec: the class `akit::failover::foros::Data` is not
among the sources (only its uses `data->id()`, `data->data()[0]` and
`Data::make_shared(i, 0, bytes)` are).  Following the spec's `LogEntry`, an
entry is the triple `(id, term, payload)`; `id` is a `uint64_t` and the
payload a sequence of bytes, possibly empty. -/
structure Data where
  id : Nat
  term : Nat
  data : List Nat
deriving DecidableEq

/-- Members of `MyDataInterface`: `dataset_` (a reference to the map owned by
`main`), `data_cnt_` (a reference to the `uint32_t` owned by `main`) and
`changed_`. -/
structure MyDataInterface where
  dataset_ : Nat → Option Data
  data_cnt_ : Nat
  changed_ : Bool

namespace MyDataInterface

/-- Constructor `MyDataInterface(dataset, data_cnt)`: `changed_` starts `true`. -/
def mk_interface (dataset : Nat → Option Data) (data_cnt : Nat) : MyDataInterface :=
  { dataset_ := dataset, data_cnt_ := data_cnt, changed_ := true }

/-- What one turn of the loop of `dump` reads of `dataset_[i]`:
`dataset_[i]->id()`, which needs a pointer that is not null, and
`dataset_[i]->data()[0]`, which needs a payload with a first byte. -/
def printable : Option Data → Bool
  | none => false
  | some d => !d.data.isEmpty

/-- Loop of `dump`: `for (uint32_t i = 0; i < data_cnt_; i++)` reads
`dataset_[i]->id()` and `dataset_[i]->data()[0]`.  The loop runs to its end
exactly when every `dataset_[i]` with `i < n` is a pointer to an entry with
a non-empty payload. -/
def dumpLoop (dataset : Nat → Option Data) : Nat → Bool
  | 0 => true
  | n + 1 => dumpLoop dataset n && printable (dataset n)

/-- Member `dump()`: nothing when `changed_` is `false`; otherwise clears
`changed_` and prints every entry below `data_cnt_`. -/
def dump (s : MyDataInterface) : Option MyDataInterface :=
  if s.changed_ = false then some s
  else if dumpLoop s.dataset_ s.data_cnt_ then some { s with changed_ := false }
  else none

/-- Member `on_data_get_requested(uint64_t id)`. -/
def on_data_get_requested (s : MyDataInterface) (id : Nat) :
    Option (Option Data × MyDataInterface) :=
  if id ≥ s.data_cnt_ then some (none, s)
  else (dump s).map fun s1 => (s1.dataset_ id, s1)

/-- Member `on_data_get_requested()`, the overload without argument. -/
def on_data_get_requested_latest (s : MyDataInterface) :
    Option (Option Data × MyDataInterface) :=
  if s.data_cnt_ = 0 then some (none, s)
  else (dump s).map fun s1 => (s1.dataset_ (s1.data_cnt_ - 1), s1)

/-- Member `on_data_rollback_requested(uint64_t id)`: the assignment
`data_cnt_ = id` converts the `uint64_t` to `uint32_t`. -/
def on_data_rollback_requested (s : MyDataInterface) (id : Nat) : Option MyDataInterface :=
  dump { s with data_cnt_ := id % UINT32_RANGE, changed_ := true }

/-- Member `on_data_commit_requested(data)`; `dataset_[data_cnt_++] = data`
stores at the old count and increments the `uint32_t`. -/
def on_data_commit_requested (s : MyDataInterface) (data : Data) :
    Option (Bool × MyDataInterface) :=
  if data.id ≠ s.data_cnt_ then some (false, s)
  else
    (dump { dataset_ := Function.update s.dataset_ s.data_cnt_ (some data),
            data_cnt_ := (s.data_cnt_ + 1) % UINT32_RANGE,
            changed_ := true }).map fun s1 => (true, s1)

/-- Member `commit(data)`. -/
def commit (s : MyDataInterface) (data : Data) : Option MyDataInterface :=
  if data.id ≠ s.data_cnt_ then some s
  else
    dump { dataset_ := Function.update s.dataset_ s.data_cnt_ (some data),
           data_cnt_ := (s.data_cnt_ + 1) % UINT32_RANGE,
           changed_ := true }

/-- Every position below the count holds what `dump` can print: an entry
(no null pointer) whose payload is not empty. -/
def Populated (s : MyDataInterface) : Prop :=
  ∀ i, i < s.data_cnt_ → printable (s.dataset_ i) = true

end MyDataInterface

/-- Loop of `main`: `dataset[i] = Data::make_shared(i, 0, {ch++})` for
`i = 0 .. data_cnt - 1`, with `unsigned char ch = (char) 97`. -/
def mainDataset : Nat → Nat → Option Data
  | 0 => fun _ => none
  | i + 1 => Function.update (mainDataset i) i (some ⟨i, 0, [(97 + i) % 256]⟩)

/-- Store handed to `MyDataInterface` by `main` for `data_cnt = n`. -/
def mainStore (n : Nat) : MyDataInterface :=
  MyDataInterface.mk_interface (mainDataset n) n

open MyDataInterface

/-- One call on the store: the two overloads of `on_data_get_requested`,
`on_data_commit_requested`, `commit` and `on_data_rollback_requested`. -/
inductive Op where
  | get (id : Nat)
  | getLatest
  | commitRequested (data : Data)
  | commit (data : Data)
  | rollback (id : Nat)
deriving DecidableEq

/-- Whether the call is `on_data_rollback_requested`. -/
def Op.isRollback : Op → Bool
  | .rollback _ => true
  | _ => false

/-- Whether the call is one of the two appending calls. -/
def Op.isCommit : Op → Bool
  | .commitRequested _ => true
  | .commit _ => true
  | _ => false

/-- Whether the entry an appending call offers has a non-empty payload (true
of every other call). -/
def Op.payloadNonempty : Op → Bool
  | .commitRequested data => !data.data.isEmpty
  | .commit data => !data.data.isEmpty
  | _ => true

/-- Store left by one call (the value returned is dropped). -/
def step (s : MyDataInterface) : Op → Option MyDataInterface
  | .get id => (on_data_get_requested s id).map Prod.snd
  | .getLatest => (on_data_get_requested_latest s).map Prod.snd
  | .commitRequested data => (on_data_commit_requested s data).map Prod.snd
  | .commit data => commit s data
  | .rollback id => on_data_rollback_requested s id

/-- Store left by a finite sequence of calls, made in order. -/
def run (s : MyDataInterface) : List Op → Option MyDataInterface
  | [] => some s
  | op :: ops => (step s op).bind fun s1 => run s1 ops

/-- Contiguity: every position below the count holds an entry whose id is
the position. -/
def Contiguous (s : MyDataInterface) : Prop :=
  ∀ k, k < s.data_cnt_ → ∃ e, s.dataset_ k = some e ∧ e.id = k

namespace Raft

/-- Modelled from the spec: `raft/event.hpp` is not among the sources.  The
six enumerators are the ones `State::Handle` switches on; a scoped
enumeration can also hold a value of its underlying type that is none of
them (the `default:` branch prints it as `Invalid event`), here
`invalid v`. -/
inductive Event where
  | kStarted
  | kTimedout
  | kLeaderDiscovered
  | kVoteReceived
  | kElected
  | kTerminated
  | invalid (v : Nat)
deriving DecidableEq

/-- Modelled from the spec: `raft/state_type.hpp` is not among the sources.
The four enumerators are the ones `NodeClusterImpl::Handle` switches on;
`invalid v` is a value that is none of them. -/
inductive StateType where
  | kStandby
  | kFollower
  | kCandidate
  | kLeader
  | invalid (v : Nat)
deriving DecidableEq

/-- The pure virtual event handlers of `State`. -/
inductive Handler where
  | OnStarted
  | OnTimedout
  | OnVoteReceived
  | OnLeaderDiscovered
  | OnElected
  | OnTerminated
deriving DecidableEq

/-- Private members of `State` read by `Handle`: `type_` and
`transition_map_` (a `std::map<Event, StateType>`; `none` is an absent
key). -/
structure State where
  type_ : StateType
  transition_map_ : Event → Option StateType

/-- Member `State::Handle(event)`.  The result is the `StateType` returned
together with the handlers invoked, in order of invocation. -/
def State.Handle (s : State) (event : Event) : StateType × List Handler :=
  match s.transition_map_ event with
  | none => (s.type_, [])
  | some next =>
    match event with
    | .kStarted => (next, [.OnStarted])
    | .kTimedout => (next, [.OnTimedout])
    | .kLeaderDiscovered => (next, [.OnLeaderDiscovered])
    | .kVoteReceived => (next, [.OnVoteReceived])
    | .kElected => (next, [.OnElected])
    | .kTerminated => (next, [.OnTerminated])
    | .invalid _ => (s.type_, [])

/-- The two services `initialize_clients` creates clients for. -/
inductive ServiceName where
  | kAppendEntriesServiceName
  | kRequestVoteServiceName
deriving DecidableEq

/-- Modelled from the spec: `rclcpp::Client` and `NodeUtil::get_service_name`
are not among the sources.  A client is identified by the endpoint it is
created for, `{namespace}/{node_id}/{service_name}`; the namespace is the
same for every client of a node and is left out. -/
structure Client where
  node_id : Nat
  service : ServiceName
deriving DecidableEq

/-- Members of `Context` read or written by `initialize_clients`: `node_id_`,
the clients registered with `node_services_->add_client` (in order of
registration), `append_entries_clients_` and `request_vote_clients_`. -/
structure Context where
  node_id_ : Nat
  node_services_ : List Client
  append_entries_clients_ : List Client
  request_vote_clients_ : List Client

/-- Context whose client lists are empty. -/
def Context.fresh (node_id : Nat) : Context :=
  { node_id_ := node_id, node_services_ := [], append_entries_clients_ := [],
    request_vote_clients_ := [] }

/-- Member `StateMachine::initialize_clients(cluster_node_ids)`: the loop
`for (auto id : cluster_node_ids)`, skipping `id == context_->node_id_`. -/
def StateMachine.initialize_clients (ctx : Context) : List Nat → Context
  | [] => ctx
  | id :: ids =>
    if id = ctx.node_id_ then StateMachine.initialize_clients ctx ids
    else
      StateMachine.initialize_clients
        { ctx with
          node_services_ :=
            ctx.node_services_ ++
              [⟨id, .kAppendEntriesServiceName⟩, ⟨id, .kRequestVoteServiceName⟩],
          append_entries_clients_ :=
            ctx.append_entries_clients_ ++ [⟨id, .kAppendEntriesServiceName⟩],
          request_vote_clients_ :=
            ctx.request_vote_clients_ ++ [⟨id, .kRequestVoteServiceName⟩] }
        ids

end Raft

namespace Lifecycle

/-- Modelled from the spec: `lifecycle/state_type.hpp` is not among the
sources.  The three enumerators are the ones `NodeClusterImpl::Handle`
switches on; `invalid v` is a value that is none of them (the `default:`
branch prints it as `Invalid lifecycle state`). -/
inductive StateType where
  | kStandby
  | kActive
  | kInactive
  | invalid (v : Nat)
deriving DecidableEq

end Lifecycle

/-- The callbacks of `LifecycleListener` that `NodeClusterImpl` calls. -/
inductive LifecycleCallback where
  | OnStandby
  | OnActivated
  | OnDeactivated
deriving DecidableEq

namespace NodeClusterImpl

/-- Member `NodeClusterImpl::Handle(const lifecycle::StateType &)`.  The
result is the list of listener callbacks invoked, in order of invocation. -/
def Handle_lifecycle (state : Lifecycle.StateType) : List LifecycleCallback :=
  match state with
  | .kStandby => [.OnStandby]
  | .kActive => [.OnActivated]
  | .kInactive => [.OnDeactivated]
  | .invalid _ => []

/-- Member `NodeClusterImpl::Handle(const raft::StateType &)`: every `case`
of its `switch` is a bare `break`.  The result is the list of listener
callbacks invoked. -/
def Handle_raft (state : Raft.StateType) : List LifecycleCallback :=
  match state with
  | .kStandby => []
  | .kFollower => []
  | .kCandidate => []
  | .kLeader => []
  | .invalid _ => []

end NodeClusterImpl

/-! ## Stores used as concrete inputs -/

/-- Store with every position populated and the count at its largest value. -/
def fullStore : MyDataInterface :=
  { dataset_ := fun k => some ⟨k, 0, [97]⟩, data_cnt_ := 4294967295, changed_ := false }

/-- Store whose count is `1` while the map is empty, as built by
`MyDataInterface(dataset, data_cnt)` from an empty map and `data_cnt = 1`. -/
def holeStore : MyDataInterface :=
  MyDataInterface.mk_interface (fun _ => none) 1

/-- Store with count `1` over an empty map in which `dump()` has nothing to
print (`changed_` is `false`). -/
def quietHoleStore : MyDataInterface :=
  { dataset_ := fun _ => none, data_cnt_ := 1, changed_ := false }

/-- Store with count `1` whose only entry has an empty payload, as built by
`MyDataInterface(dataset, data_cnt)` from the map `0 ↦ Data(0, 0, {})` and
`data_cnt = 1`. -/
def emptyPayloadStore : MyDataInterface :=
  MyDataInterface.mk_interface (Function.update (fun _ => none) 0 (some ⟨0, 0, []⟩)) 1

/-! ## Auxiliary facts about `dump` -/

theorem printable_iff (o : Option Data) :
    printable o = true ↔ ∃ d, o = some d ∧ d.data ≠ [] := by
  cases o with
  | none => simp [printable]
  | some d => simp [printable]

theorem dumpLoop_iff (ds : Nat → Option Data) (n : Nat) :
    dumpLoop ds n = true ↔ ∀ i, i < n → printable (ds i) = true := by
  induction n with
  | zero => simp [dumpLoop]
  | succ n ih =>
    simp only [dumpLoop, Bool.and_eq_true, ih]
    constructor
    · rintro ⟨h1, h2⟩ i hi
      rcases Nat.lt_succ_iff_lt_or_eq.mp hi with h | h
      · exact h1 i h
      · subst h; exact h2
    · intro h
      exact ⟨fun i hi => h i (Nat.lt_succ_of_lt hi), h n (Nat.lt_succ_self n)⟩

theorem dump_of_populated (s : MyDataInterface) (h : Populated s) :
    dump s = some { s with changed_ := false } := by
  have hl : dumpLoop s.dataset_ s.data_cnt_ = true := (dumpLoop_iff _ _).mpr h
  unfold dump
  by_cases hc : s.changed_ = false
  · simp only [hc, if_true]
    cases s; simp_all
  · simp [hc, hl]

theorem dump_eq_some (s t : MyDataInterface) (h : dump s = some t) :
    t.dataset_ = s.dataset_ ∧ t.data_cnt_ = s.data_cnt_ ∧
      (s.changed_ = true → t.changed_ = false ∧ Populated t) := by
  unfold dump at h
  cases hc : s.changed_ with
  | false =>
    simp only [hc, if_true, Option.some.injEq] at h
    subst h
    simp [hc]
  | true =>
    cases hl : dumpLoop s.dataset_ s.data_cnt_ with
    | false => simp [hc, hl] at h
    | true =>
      simp [hc, hl] at h
      subst h
      refine ⟨rfl, rfl, fun _ => ⟨rfl, ?_⟩⟩
      exact (dumpLoop_iff _ _).mp hl

theorem mainDataset_eq (n k : Nat) :
    mainDataset n k = if k < n then some ⟨k, 0, [(97 + k) % 256]⟩ else none := by
  induction n with
  | zero => simp [mainDataset]
  | succ n ih =>
    simp only [mainDataset]
    by_cases hk : k = n
    · subst hk
      simp
    · rw [Function.update_noteq hk, ih]
      have h1 : k < n + 1 ↔ k < n := by omega
      simp [h1]

theorem mainStore_populated (n : Nat) : Populated (mainStore n) := by
  intro i hi
  have hi2 : i < n := hi
  show printable (mainDataset n i) = true
  rw [mainDataset_eq]
  simp [hi2, printable]

theorem on_data_get_requested_of_populated (s : MyDataInterface) (id : Nat)
    (hp : Populated s) (hid : id < s.data_cnt_) :
    on_data_get_requested s id = some (s.dataset_ id, { s with changed_ := false }) := by
  unfold on_data_get_requested
  rw [if_neg (by omega), dump_of_populated s hp]
  rfl

/-! ## `on_data_commit_requested` -/

theorem populated_after_store (s : MyDataInterface) (data : Data) (h : Populated s)
    (hd : data.data ≠ []) :
    Populated { dataset_ := Function.update s.dataset_ s.data_cnt_ (some data),
                data_cnt_ := (s.data_cnt_ + 1) % UINT32_RANGE,
                changed_ := true } := by
  intro i hi
  simp only at hi
  have hle : (s.data_cnt_ + 1) % UINT32_RANGE ≤ s.data_cnt_ + 1 := Nat.mod_le _ _
  by_cases hi2 : i = s.data_cnt_
  · subst hi2
    simp [printable, hd]
  · simp only [Function.update_noteq hi2]
    exact h i (by omega)

theorem on_data_commit_requested_accept (s : MyDataInterface) (data : Data)
    (h : Populated s) (hd : data.data ≠ []) (hid : data.id = s.data_cnt_) :
    on_data_commit_requested s data =
      some (true, { dataset_ := Function.update s.dataset_ s.data_cnt_ (some data),
                    data_cnt_ := (s.data_cnt_ + 1) % UINT32_RANGE,
                    changed_ := false }) := by
  unfold on_data_commit_requested
  simp only [hid, ne_eq, not_true_eq_false, if_false]
  rw [dump_of_populated _ (populated_after_store s data h hd)]
  rfl

theorem on_data_commit_requested_true (s s1 : MyDataInterface) (data : Data)
    (h : on_data_commit_requested s data = some (true, s1)) :
    data.id = s.data_cnt_ ∧
      s1.dataset_ = Function.update s.dataset_ s.data_cnt_ (some data) ∧
      s1.data_cnt_ = (s.data_cnt_ + 1) % UINT32_RANGE ∧
      s1.changed_ = false ∧ Populated s1 := by
  unfold on_data_commit_requested at h
  by_cases hid : data.id = s.data_cnt_
  · simp only [hid, ne_eq, not_true_eq_false, if_false, Option.map_eq_some'] at h
    obtain ⟨t, ht, hts⟩ := h
    have ht1 : t = s1 := by injection hts
    subst ht1
    obtain ⟨h1, h2, h3⟩ := dump_eq_some _ _ ht
    exact ⟨hid, h1, h2, (h3 rfl).1, (h3 rfl).2⟩
  · simp [hid] at h

/-- C1 (as stated, refuted).  At the largest count an accepted entry resets
the count to `0` instead of raising it by one.  With a null pointer below
the count, an entry whose id equals the count is stored but the call has
no result (`dump` dereferences the null `dataset_[0]`).  On the empty
store of `main`, the entry with id `0` and an empty payload is stored but
the call has no result (`dump` reads the first byte of the empty
payload); likewise for an entry with id `1` offered to a store whose entry
at `0` has an empty payload. -/
theorem on_data_commit_requested_not_always_increment :
    ((on_data_commit_requested fullStore ⟨4294967295, 0, [98]⟩).map
        (fun r => (r.1, r.2.data_cnt_)) = some (true, 0) ∧
      fullStore.data_cnt_ + 1 ≠ 0) ∧
    ((⟨1, 0, [98]⟩ : Data).id = holeStore.data_cnt_ ∧
      (on_data_commit_requested holeStore ⟨1, 0, [98]⟩).isNone = true) ∧
    ((⟨0, 0, []⟩ : Data).id = (mainStore 0).data_cnt_ ∧
      (on_data_commit_requested (mainStore 0) ⟨0, 0, []⟩).isNone = true) ∧
    ((⟨1, 0, [98]⟩ : Data).id = emptyPayloadStore.data_cnt_ ∧
      (on_data_commit_requested emptyPayloadStore ⟨1, 0, [98]⟩).isNone = true) := by
  refine ⟨⟨?_, by decide⟩, ⟨by decide, ?_⟩, ⟨by decide, ?_⟩, by decide, ?_⟩
  · rfl
  · rfl
  · rfl
  · rfl

/-- C1 (amended).  On every store and for every entry `e`,
`on_data_commit_requested(e)` returns `true` only if `e.id` equals the
count and returns `false` when it does not.  When `e.id` equals the count,
every position below the count holds an entry with a non-empty payload and
the payload of `e` is not empty, it returns `true`.  A `true` answer leaves
`e` stored under `e.id` and, from a count below `2 ^ 32 - 1`, the count
raised by one. -/
theorem on_data_commit_requested_spec (s : MyDataInterface) (e : Data) :
    ((∃ s1, on_data_commit_requested s e = some (true, s1)) → e.id = s.data_cnt_) ∧
    (e.id ≠ s.data_cnt_ → on_data_commit_requested s e = some (false, s)) ∧
    (Populated s → e.data ≠ [] → e.id = s.data_cnt_ →
      ∃ s1, on_data_commit_requested s e = some (true, s1)) ∧
    (∀ s1, on_data_commit_requested s e = some (true, s1) →
      s1.dataset_ e.id = some e ∧
      (s.data_cnt_ + 1 < UINT32_RANGE → s1.data_cnt_ = s.data_cnt_ + 1)) := by
  refine ⟨?_, ?_, ?_, ?_⟩
  · rintro ⟨s1, h⟩
    exact (on_data_commit_requested_true s s1 e h).1
  · intro hid
    simp [on_data_commit_requested, hid]
  · intro hpop hpay hid
    exact ⟨_, on_data_commit_requested_accept s e hpop hpay hid⟩
  · intro s1 h
    obtain ⟨hid, hds, hc, -, -⟩ := on_data_commit_requested_true s s1 e h
    refine ⟨?_, fun hcnt => by rw [hc, Nat.mod_eq_of_lt hcnt]⟩
    rw [hds, hid]
    simp

/-- Witness of C1 (amended): the store built by `main` for two entries and the
entry with id `2`. -/
theorem on_data_commit_requested_spec_witness :
    (Populated (mainStore 2) ∧ (⟨2, 1, [99]⟩ : Data).data ≠ [] ∧
      (⟨2, 1, [99]⟩ : Data).id = (mainStore 2).data_cnt_ ∧
      (mainStore 2).data_cnt_ + 1 < UINT32_RANGE) ∧
    ∃ s1, on_data_commit_requested (mainStore 2) ⟨2, 1, [99]⟩ = some (true, s1) ∧
      s1.dataset_ 2 = some ⟨2, 1, [99]⟩ ∧ s1.data_cnt_ = 2 + 1 := by
  obtain ⟨s1, h1⟩ := (on_data_commit_requested_spec (mainStore 2) ⟨2, 1, [99]⟩).2.2.1
    (mainStore_populated 2) (by decide) rfl
  obtain ⟨hd, hc⟩ := (on_data_commit_requested_spec (mainStore 2) ⟨2, 1, [99]⟩).2.2.2 s1 h1
  exact ⟨⟨mainStore_populated 2, by decide, rfl, by decide⟩, s1, h1, hd, hc (by decide)⟩

/-- C2.  An entry whose id differs from the count is refused: the call
returns `false` and the store (count, entries and `changed_`) is the one
it started from. -/
theorem on_data_commit_requested_reject (s : MyDataInterface) (e : Data)
    (h : e.id ≠ s.data_cnt_) :
    on_data_commit_requested s e = some (false, s) := by
  simp [on_data_commit_requested, h]

/-- Witness of C2: the entry with id `2` offered to the empty store of `main`. -/
theorem on_data_commit_requested_reject_witness :
    (⟨2, 0, [97]⟩ : Data).id ≠ (mainStore 0).data_cnt_ ∧
      on_data_commit_requested (mainStore 0) ⟨2, 0, [97]⟩ = some (false, mainStore 0) :=
  ⟨by decide, on_data_commit_requested_reject (mainStore 0) ⟨2, 0, [97]⟩ (by decide)⟩

/-! ## Single calls other than a rollback -/

/-- What a completed call that is not a rollback does to the map and the
count: nothing, or one accepted entry stored at the old count. -/
theorem step_eq_some (s s1 : MyDataInterface) (op : Op) (hr : op.isRollback = false)
    (h : step s op = some s1) :
    (s1.dataset_ = s.dataset_ ∧ s1.data_cnt_ = s.data_cnt_) ∨
    (op.isCommit = true ∧ ∃ d : Data, d.id = s.data_cnt_ ∧
      s1.dataset_ = Function.update s.dataset_ s.data_cnt_ (some d) ∧
      s1.data_cnt_ = (s.data_cnt_ + 1) % UINT32_RANGE) := by
  cases op with
  | get id =>
    left
    simp only [step, on_data_get_requested] at h
    by_cases hid : id ≥ s.data_cnt_
    · simp [hid] at h
      subst h
      exact ⟨rfl, rfl⟩
    · simp only [hid, if_false, Option.map_map, Option.map_eq_some'] at h
      obtain ⟨t, ht, hts⟩ := h
      simp only [Function.comp] at hts
      subst hts
      exact ⟨(dump_eq_some _ _ ht).1, (dump_eq_some _ _ ht).2.1⟩
  | getLatest =>
    left
    simp only [step, on_data_get_requested_latest] at h
    by_cases hc : s.data_cnt_ = 0
    · simp [hc] at h
      subst h
      exact ⟨rfl, rfl⟩
    · simp only [hc, if_false, Option.map_map, Option.map_eq_some'] at h
      obtain ⟨t, ht, hts⟩ := h
      simp only [Function.comp] at hts
      subst hts
      exact ⟨(dump_eq_some _ _ ht).1, (dump_eq_some _ _ ht).2.1⟩
  | commitRequested d =>
    simp only [step, on_data_commit_requested] at h
    by_cases hid : d.id = s.data_cnt_
    · right
      simp only [hid, ne_eq, not_true_eq_false, if_false, Option.map_map,
        Option.map_eq_some'] at h
      obtain ⟨t, ht, hts⟩ := h
      simp only [Function.comp] at hts
      subst hts
      exact ⟨rfl, d, hid, (dump_eq_some _ _ ht).1, (dump_eq_some _ _ ht).2.1⟩
    · left
      simp [hid] at h
      subst h
      exact ⟨rfl, rfl⟩
  | commit d =>
    simp only [step, commit] at h
    by_cases hid : d.id = s.data_cnt_
    · right
      simp only [hid, ne_eq, not_true_eq_false, if_false] at h
      exact ⟨rfl, d, hid, (dump_eq_some _ _ h).1, (dump_eq_some _ _ h).2.1⟩
    · left
      simp [hid] at h
      subst h
      exact ⟨rfl, rfl⟩
  | rollback id => simp [Op.isRollback] at hr

theorem populated_congr (s t : MyDataInterface) (hd : t.dataset_ = s.dataset_)
    (hc : t.data_cnt_ = s.data_cnt_) (hp : Populated s) : Populated t := by
  intro i hi
  rw [hd]
  exact hp i (by rw [← hc]; exact hi)

theorem dump_keeps_populated (s t : MyDataInterface) (hp : Populated s)
    (h : dump s = some t) : Populated t :=
  populated_congr s t (dump_eq_some s t h).1 (dump_eq_some s t h).2.1 hp

/-- A completed call, rollback included, leaves a store that `dump` can
print when it started from one. -/
theorem step_keeps_populated (s s1 : MyDataInterface) (op : Op) (hp : Populated s)
    (h : step s op = some s1) : Populated s1 := by
  cases op with
  | get id =>
    simp only [step, on_data_get_requested] at h
    by_cases hid : id ≥ s.data_cnt_
    · simp [hid] at h
      subst h
      exact hp
    · simp only [hid, if_false, Option.map_map, Option.map_eq_some'] at h
      obtain ⟨t, ht, hts⟩ := h
      simp only [Function.comp] at hts
      subst hts
      exact dump_keeps_populated s t hp ht
  | getLatest =>
    simp only [step, on_data_get_requested_latest] at h
    by_cases hc : s.data_cnt_ = 0
    · simp [hc] at h
      subst h
      exact hp
    · simp only [hc, if_false, Option.map_map, Option.map_eq_some'] at h
      obtain ⟨t, ht, hts⟩ := h
      simp only [Function.comp] at hts
      subst hts
      exact dump_keeps_populated s t hp ht
  | commitRequested d =>
    simp only [step, on_data_commit_requested] at h
    by_cases hid : d.id = s.data_cnt_
    · simp only [hid, ne_eq, not_true_eq_false, if_false, Option.map_map,
        Option.map_eq_some'] at h
      obtain ⟨t, ht, hts⟩ := h
      simp only [Function.comp] at hts
      subst hts
      exact ((dump_eq_some _ _ ht).2.2 rfl).2
    · simp [hid] at h
      subst h
      exact hp
  | commit d =>
    simp only [step, commit] at h
    by_cases hid : d.id = s.data_cnt_
    · simp only [hid, ne_eq, not_true_eq_false, if_false] at h
      exact ((dump_eq_some _ _ h).2.2 rfl).2
    · simp [hid] at h
      subst h
      exact hp
  | rollback id =>
    simp only [step, on_data_rollback_requested] at h
    exact ((dump_eq_some _ _ h).2.2 rfl).2

/-- In a store that `dump` can print, every call that is not a rollback and
offers no empty payload completes. -/
theorem step_of_populated (s : MyDataInterface) (op : Op) (hp : Populated s)
    (hr : op.isRollback = false) (hpay : op.payloadNonempty = true) :
    ∃ s1, step s op = some s1 := by
  cases op with
  | get id =>
    by_cases hid : id ≥ s.data_cnt_
    · exact ⟨s, by simp [step, on_data_get_requested, hid]⟩
    · refine ⟨{ s with changed_ := false }, ?_⟩
      simp only [step]
      rw [on_data_get_requested_of_populated s id hp (by omega)]
      rfl
  | getLatest =>
    by_cases hc : s.data_cnt_ = 0
    · exact ⟨s, by simp [step, on_data_get_requested_latest, hc]⟩
    · refine ⟨{ s with changed_ := false }, ?_⟩
      simp only [step, on_data_get_requested_latest, hc, if_false]
      rw [dump_of_populated s hp]
      rfl
  | commitRequested d =>
    have hd : d.data ≠ [] := by simpa [Op.payloadNonempty] using hpay
    by_cases hid : d.id = s.data_cnt_
    · refine ⟨{ dataset_ := Function.update s.dataset_ s.data_cnt_ (some d),
                data_cnt_ := (s.data_cnt_ + 1) % UINT32_RANGE,
                changed_ := false }, ?_⟩
      simp only [step]
      rw [on_data_commit_requested_accept s d hp hd hid]
      rfl
    · exact ⟨s, by simp [step, on_data_commit_requested, hid]⟩
  | commit d =>
    have hd : d.data ≠ [] := by simpa [Op.payloadNonempty] using hpay
    by_cases hid : d.id = s.data_cnt_
    · refine ⟨{ dataset_ := Function.update s.dataset_ s.data_cnt_ (some d),
                data_cnt_ := (s.data_cnt_ + 1) % UINT32_RANGE,
                changed_ := false }, ?_⟩
      simp only [step, commit, hid, ne_eq, not_true_eq_false, if_false]
      exact dump_of_populated _ (populated_after_store s d hp hd)
    · exact ⟨s, by simp [step, commit, hid]⟩
  | rollback id => simp [Op.isRollback] at hr

/-! ## An accepted entry stays readable -/

theorem run_keeps_entry (e : Data) (ops : List Op) :
    ∀ s s2 : MyDataInterface, Populated s → (∀ op ∈ ops, op.isRollback = false) →
      e.id < s.data_cnt_ → s.dataset_ e.id = some e →
      s.data_cnt_ + ops.countP Op.isCommit < UINT32_RANGE →
      run s ops = some s2 →
      Populated s2 ∧ e.id < s2.data_cnt_ ∧ s2.dataset_ e.id = some e := by
  induction ops with
  | nil =>
    intro s s2 hp _ hlt hds _ hrun
    have : s = s2 := Option.some.inj hrun
    subst this
    exact ⟨hp, hlt, hds⟩
  | cons op ops ih =>
    intro s s2 hp hops hlt hds hb hrun
    have hr : op.isRollback = false := hops op (List.mem_cons_self _ _)
    simp only [run, Option.bind_eq_some] at hrun
    obtain ⟨s1, hs1, hrun1⟩ := hrun
    have hp1 : Populated s1 := step_keeps_populated s s1 op hp hs1
    have hrest : ∀ o ∈ ops, o.isRollback = false :=
      fun o ho => hops o (List.mem_cons_of_mem _ ho)
    have hle : ops.countP Op.isCommit ≤ (op :: ops).countP Op.isCommit := by
      rw [List.countP_cons]; omega
    rcases step_eq_some s s1 op hr hs1 with ⟨hd, hc⟩ | ⟨hcm, d, _, hd, hc⟩
    · exact ih s1 s2 hp1 hrest (by rw [hc]; exact hlt) (by rw [hd]; exact hds)
        (by rw [hc]; omega) hrun1
    · have hcount : (op :: ops).countP Op.isCommit = ops.countP Op.isCommit + 1 := by
        rw [List.countP_cons]; simp [hcm]
      have hmod : (s.data_cnt_ + 1) % UINT32_RANGE = s.data_cnt_ + 1 :=
        Nat.mod_eq_of_lt (by omega)
      exact ih s1 s2 hp1 hrest (by rw [hc, hmod]; omega)
        (by rw [hd, Function.update_noteq (by omega)]; exact hds)
        (by rw [hc, hmod]; omega) hrun1

theorem run_completes (ops : List Op) :
    ∀ s : MyDataInterface, Populated s → (∀ op ∈ ops, op.isRollback = false) →
      (∀ op ∈ ops, op.payloadNonempty = true) → ∃ s2, run s ops = some s2 := by
  induction ops with
  | nil =>
    intro s _ _ _
    exact ⟨s, rfl⟩
  | cons op ops ih =>
    intro s hp hops hpay
    obtain ⟨s1, hs1⟩ := step_of_populated s op hp (hops op (List.mem_cons_self _ _))
      (hpay op (List.mem_cons_self _ _))
    obtain ⟨s2, h2⟩ := ih s1 (step_keeps_populated s s1 op hp hs1)
      (fun o ho => hops o (List.mem_cons_of_mem _ ho))
      (fun o ho => hpay o (List.mem_cons_of_mem _ ho))
    exact ⟨s2, by simp [run, hs1, h2]⟩

/-- C3 (as stated, refuted).  Accepted at the largest count, the entry with
id `2 ^ 32 - 1` resets the count to `0`; with no further call at all,
`on_data_get_requested` at its id answers a null pointer.  And after the
entry with id `0` is accepted on the empty store of `main`, the appending
call for the entry with id `1` and an empty payload has no result (`dump`
reads the first byte of the empty payload), so nothing is read after it. -/
theorem get_after_commit_lost :
    (∃ s1, on_data_commit_requested fullStore ⟨4294967295, 0, [98]⟩ = some (true, s1) ∧
      run s1 [] = some s1 ∧
      (on_data_get_requested s1 (⟨4294967295, 0, [98]⟩ : Data).id).map Prod.fst
        = some none) ∧
    (∃ s1, on_data_commit_requested (mainStore 0) ⟨0, 0, [97]⟩ = some (true, s1) ∧
      (Op.commitRequested ⟨1, 0, []⟩).isRollback = false ∧
      run s1 [Op.commitRequested ⟨1, 0, []⟩] = none) :=
  ⟨⟨{ dataset_ := Function.update fullStore.dataset_ 4294967295
        (some ⟨4294967295, 0, [98]⟩),
      data_cnt_ := 0, changed_ := false }, rfl, rfl, rfl⟩,
   ⟨{ dataset_ := Function.update (mainStore 0).dataset_ 0 (some ⟨0, 0, [97]⟩),
      data_cnt_ := 1, changed_ := false }, rfl, rfl, rfl⟩⟩

/-- C3 (amended).  When `on_data_commit_requested(e)` has returned `true` and
the calls that follow contain no rollback: if they hold too few appending
calls for the 32-bit count to wrap, then whenever they complete,
`on_data_get_requested(e.id)` afterwards returns exactly `e`; and they do
complete when no appending call among them offers an empty payload. -/
theorem get_after_commit (s s1 : MyDataInterface) (e : Data) (ops : List Op)
    (hc : on_data_commit_requested s e = some (true, s1))
    (hops : ∀ op ∈ ops, op.isRollback = false) :
    (s.data_cnt_ + 1 + ops.countP Op.isCommit < UINT32_RANGE →
      ∀ s2, run s1 ops = some s2 →
        ∃ s3, on_data_get_requested s2 e.id = some (some e, s3)) ∧
    ((∀ op ∈ ops, op.payloadNonempty = true) → ∃ s2, run s1 ops = some s2) := by
  obtain ⟨hid, hds, hcnt, -, hp1⟩ := on_data_commit_requested_true s s1 e hc
  constructor
  · intro hb s2 h2
    have hmod : (s.data_cnt_ + 1) % UINT32_RANGE = s.data_cnt_ + 1 :=
      Nat.mod_eq_of_lt (by omega)
    obtain ⟨hp2, hlt2, hds2⟩ :=
      run_keeps_entry e ops s1 s2 hp1 hops (by rw [hcnt, hmod, hid]; omega)
        (by rw [hds, hid]; simp) (by rw [hcnt, hmod]; omega) h2
    refine ⟨{ s2 with changed_ := false }, ?_⟩
    rw [on_data_get_requested_of_populated s2 e.id hp2 hlt2, hds2]
  · intro hpay
    exact run_completes ops s1 hp1 hops hpay

/-- Witness of C3 (amended): from the store of `main` with one entry, accept
the entry with id `1`, then read, append through both paths (one refused,
one accepted) and read the latest. -/
theorem get_after_commit_witness :
    on_data_commit_requested (mainStore 1) ⟨1, 7, [98]⟩ =
      some (true,
        { dataset_ := Function.update (mainStore 1).dataset_ 1 (some ⟨1, 7, [98]⟩),
          data_cnt_ := 2, changed_ := false }) ∧
    ∃ s2,
      run { dataset_ := Function.update (mainStore 1).dataset_ 1 (some ⟨1, 7, [98]⟩),
            data_cnt_ := 2, changed_ := false }
        [Op.get 0, Op.commitRequested ⟨5, 7, [99]⟩, Op.commit ⟨2, 7, [99]⟩, Op.getLatest]
        = some s2 ∧
      ∃ s3, on_data_get_requested s2 (⟨1, 7, [98]⟩ : Data).id = some (some ⟨1, 7, [98]⟩, s3) := by
  have hacc : on_data_commit_requested (mainStore 1) ⟨1, 7, [98]⟩ =
      some (true,
        { dataset_ := Function.update (mainStore 1).dataset_ 1 (some ⟨1, 7, [98]⟩),
          data_cnt_ := 2, changed_ := false }) := rfl
  obtain ⟨hread, hdone⟩ := get_after_commit (mainStore 1) _ ⟨1, 7, [98]⟩
    [Op.get 0, Op.commitRequested ⟨5, 7, [99]⟩, Op.commit ⟨2, 7, [99]⟩, Op.getLatest]
    hacc (by decide)
  obtain ⟨s2, h2⟩ := hdone (by decide)
  exact ⟨hacc, s2, h2, hread (by decide) s2 h2⟩

/-! ## `on_data_get_requested` -/

/-- C4 (as stated, refuted).  With count `1` and an empty map, position `0` is
below the count, yet `on_data_get_requested(0)` returns no entry: it
returns the null `dataset_[0]` when `changed_` is `false`, and has no
result at all when `changed_` is `true` (`dump` dereferences the null
`dataset_[0]`).  With count `1` and an entry with an empty payload at
position `0`, it has no result either (`dump` reads the first byte of the
empty payload). -/
theorem on_data_get_requested_no_entry :
    (0 < quietHoleStore.data_cnt_ ∧
      (on_data_get_requested quietHoleStore 0).map Prod.fst = some none) ∧
    (0 < holeStore.data_cnt_ ∧
      ¬ ∃ e s1, on_data_get_requested holeStore 0 = some (some e, s1)) ∧
    (0 < emptyPayloadStore.data_cnt_ ∧
      ¬ ∃ e s1, on_data_get_requested emptyPayloadStore 0 = some (some e, s1)) := by
  refine ⟨⟨by decide, rfl⟩, ⟨by decide, ?_⟩, by decide, ?_⟩
  · rintro ⟨e, s1, h⟩
    have h0 : on_data_get_requested holeStore 0 = none := rfl
    rw [h0] at h
    exact Option.noConfusion h
  · rintro ⟨e, s1, h⟩
    have h0 : on_data_get_requested emptyPayloadStore 0 = none := rfl
    rw [h0] at h
    exact Option.noConfusion h

/-- C4 (amended).  On every store, `on_data_get_requested(id)` returns a null
pointer when `id ≥ count`.  In a store whose positions below the count all
hold an entry with a non-empty payload, it returns for `id < count` the
entry stored at `id`, which exists. -/
theorem on_data_get_requested_spec (s : MyDataInterface) (id : Nat) :
    (id ≥ s.data_cnt_ → on_data_get_requested s id = some (none, s)) ∧
    (Populated s → id < s.data_cnt_ → ∃ e, s.dataset_ id = some e ∧
      on_data_get_requested s id = some (some e, { s with changed_ := false })) := by
  constructor
  · intro h
    simp [on_data_get_requested, h]
  · intro hp h
    obtain ⟨e, he, -⟩ := (printable_iff _).mp (hp id h)
    exact ⟨e, he, by rw [on_data_get_requested_of_populated s id hp h, he]⟩

/-- Witness of C4 (amended): the store built by `main` for three entries, read
at position `1` and at position `3`. -/
theorem on_data_get_requested_spec_witness :
    (3 ≥ (mainStore 3).data_cnt_ ∧ Populated (mainStore 3) ∧ 1 < (mainStore 3).data_cnt_) ∧
    on_data_get_requested (mainStore 3) 3 = some (none, mainStore 3) ∧
    ∃ e, (mainStore 3).dataset_ 1 = some e ∧
      on_data_get_requested (mainStore 3) 1 =
        some (some e, { mainStore 3 with changed_ := false }) :=
  ⟨⟨by decide, mainStore_populated 3, by decide⟩,
   (on_data_get_requested_spec (mainStore 3) 3).1 (by decide),
   (on_data_get_requested_spec (mainStore 3) 1).2 (mainStore_populated 3) (by decide)⟩

/-! ## `on_data_rollback_requested` -/

theorem on_data_rollback_requested_eq_some (s s1 : MyDataInterface) (id : Nat)
    (h : on_data_rollback_requested s id = some s1) :
    s1.dataset_ = s.dataset_ ∧ s1.data_cnt_ = id % UINT32_RANGE ∧
      s1.changed_ = false ∧ Populated s1 := by
  obtain ⟨h1, h2, h3⟩ := dump_eq_some _ _ h
  exact ⟨h1, h2, (h3 rfl).1, (h3 rfl).2⟩

theorem on_data_rollback_requested_completes (s : MyDataInterface) (id : Nat) :
    (∃ s1, on_data_rollback_requested s id = some s1) ↔
      ∀ i, i < id % UINT32_RANGE → printable (s.dataset_ i) = true := by
  constructor
  · rintro ⟨s1, h⟩ i hi
    obtain ⟨h1, h2, -, hp⟩ := on_data_rollback_requested_eq_some s s1 id h
    have := hp i (by rw [h2]; exact hi)
    rwa [h1] at this
  · intro h
    exact ⟨_, dump_of_populated
      { s with data_cnt_ := id % UINT32_RANGE, changed_ := true } h⟩

/-- C5 (as stated, refuted).  After `on_data_rollback_requested(2 ^ 32)` on the
empty store of `main` the count is `0`, not `2 ^ 32`;
`on_data_rollback_requested(1)` on the same store has no result (`dump`
dereferences the null `dataset_[0]`); and `on_data_rollback_requested(1)`
on a store whose entry at `0` has an empty payload has no result (`dump`
reads the first byte of the empty payload). -/
theorem on_data_rollback_requested_count_differs :
    ((on_data_rollback_requested (mainStore 0) 4294967296).map
        (fun s1 => s1.data_cnt_) = some 0) ∧
      (on_data_rollback_requested (mainStore 0) 1).isNone = true ∧
      (on_data_rollback_requested emptyPayloadStore 1).isNone = true :=
  ⟨rfl, rfl, rfl⟩

/-- C5 (amended).  For every id, `on_data_rollback_requested(id)` completes
when every position below `id` holds an entry with a non-empty payload;
whenever it completes it leaves the entries untouched, the count equal to
`id` if `id < 2 ^ 32`, and afterwards `on_data_get_requested(k)` returns a
null pointer for every `k ≥ id`. -/
theorem on_data_rollback_requested_spec (s : MyDataInterface) (id : Nat) :
    ((∀ i, i < id → printable (s.dataset_ i) = true) →
      ∃ s1, on_data_rollback_requested s id = some s1) ∧
    (∀ s1, on_data_rollback_requested s id = some s1 →
      s1.dataset_ = s.dataset_ ∧
      (id < UINT32_RANGE → s1.data_cnt_ = id) ∧
      ∀ k, k ≥ id → on_data_get_requested s1 k = some (none, s1)) := by
  have hle : id % UINT32_RANGE ≤ id := Nat.mod_le _ _
  constructor
  · intro hpop
    exact (on_data_rollback_requested_completes s id).mpr
      (fun i hi => hpop i (by omega))
  · intro s1 h
    obtain ⟨h1, h2, -, -⟩ := on_data_rollback_requested_eq_some s s1 id h
    refine ⟨h1, fun hid => by rw [h2, Nat.mod_eq_of_lt hid], ?_⟩
    intro k hk
    have hk2 : k ≥ s1.data_cnt_ := by rw [h2]; omega
    simp [on_data_get_requested, hk2]

/-- Witness of C5 (amended): rolling the three-entry store of `main` back to
length `1`. -/
theorem on_data_rollback_requested_spec_witness :
    (1 < UINT32_RANGE ∧ ∀ i, i < 1 → printable ((mainStore 3).dataset_ i) = true) ∧
    ∃ s1, on_data_rollback_requested (mainStore 3) 1 = some s1 ∧
      s1.dataset_ = (mainStore 3).dataset_ ∧
      s1.data_cnt_ = 1 ∧
      ∀ k, k ≥ 1 → on_data_get_requested s1 k = some (none, s1) := by
  have hpop : ∀ i, i < 1 → printable ((mainStore 3).dataset_ i) = true :=
    fun i hi => mainStore_populated 3 i (Nat.lt_trans hi (by decide))
  obtain ⟨s1, h1⟩ := (on_data_rollback_requested_spec (mainStore 3) 1).1 hpop
  obtain ⟨hd, hc, hg⟩ := (on_data_rollback_requested_spec (mainStore 3) 1).2 s1 h1
  exact ⟨⟨by decide, hpop⟩, s1, h1, hd, hc (by decide), hg⟩

/-! ## The count under calls other than a rollback -/

/-- C6 (as stated, refuted).  `on_data_commit_requested` at the largest count
is accepted and leaves the count at `0`, below the count before the call. -/
theorem count_decreases_on_wrap :
    (Op.commitRequested ⟨4294967295, 0, [98]⟩).isRollback = false ∧
    ∃ s1, step fullStore (Op.commitRequested ⟨4294967295, 0, [98]⟩) = some s1 ∧
      s1.data_cnt_ < fullStore.data_cnt_ :=
  ⟨rfl,
   { dataset_ := Function.update fullStore.dataset_ 4294967295 (some ⟨4294967295, 0, [98]⟩),
     data_cnt_ := 0, changed_ := false }, rfl, by decide⟩

/-- C6 (amended).  While the count is below `2 ^ 32 - 1`, the count after a
completed call other than a rollback is at least the count before it. -/
theorem count_monotone_without_rollback (s s1 : MyDataInterface) (op : Op)
    (hr : op.isRollback = false) (hcnt : s.data_cnt_ + 1 < UINT32_RANGE)
    (h : step s op = some s1) :
    s.data_cnt_ ≤ s1.data_cnt_ := by
  rcases step_eq_some s s1 op hr h with ⟨-, hc⟩ | ⟨-, d, -, -, hc⟩
  · omega
  · rw [hc, Nat.mod_eq_of_lt hcnt]
    omega

/-- Witness of C6 (amended): `commit` of the entry with id `2` on the two-entry
store of `main`, which raises the count from `2` to `3`. -/
theorem count_monotone_without_rollback_witness :
    ((Op.commit ⟨2, 0, [99]⟩).isRollback = false ∧
      (mainStore 2).data_cnt_ + 1 < UINT32_RANGE) ∧
    ∃ s1, step (mainStore 2) (Op.commit ⟨2, 0, [99]⟩) = some s1 ∧
      s1.data_cnt_ = 3 ∧ (mainStore 2).data_cnt_ ≤ s1.data_cnt_ :=
  ⟨⟨rfl, by decide⟩,
   { dataset_ := Function.update (mainStore 2).dataset_ 2 (some ⟨2, 0, [99]⟩),
     data_cnt_ := 3, changed_ := false }, rfl, rfl,
   count_monotone_without_rollback (mainStore 2) _ (Op.commit ⟨2, 0, [99]⟩) rfl
     (by decide) rfl⟩

/-! ## Contiguity -/

/-- Every key of the map is the id of the entry stored under it. -/
theorem mainStore_keys (n k : Nat) (e : Data) (h : (mainStore n).dataset_ k = some e) :
    e.id = k := by
  have h2 : mainDataset n k = some e := h
  rw [mainDataset_eq] at h2
  by_cases hk : k < n
  · simp only [hk, if_true, Option.some.injEq] at h2
    rw [← h2]
  · simp [hk] at h2

theorem step_keeps_invariant (s s1 : MyDataInterface) (op : Op)
    (hp : Populated s) (hk : ∀ k e, s.dataset_ k = some e → e.id = k)
    (h : step s op = some s1) :
    Populated s1 ∧ ∀ k e, s1.dataset_ k = some e → e.id = k := by
  cases hr : op.isRollback with
  | false =>
    refine ⟨step_keeps_populated s s1 op hp h, ?_⟩
    rcases step_eq_some s s1 op hr h with ⟨hd, -⟩ | ⟨-, d, hid, hd, -⟩
    · rw [hd]
      exact hk
    · intro k e hke
      rw [hd] at hke
      by_cases hkc : k = s.data_cnt_
      · subst hkc
        simp only [Function.update_same, Option.some.injEq] at hke
        rw [← hke, hid]
      · rw [Function.update_noteq hkc] at hke
        exact hk k e hke
  | true =>
    cases op with
    | rollback id =>
      obtain ⟨h1, -, -, hp1⟩ := on_data_rollback_requested_eq_some s s1 id h
      refine ⟨hp1, ?_⟩
      rw [h1]
      exact hk
    | get id => simp [Op.isRollback] at hr
    | getLatest => simp [Op.isRollback] at hr
    | commitRequested d => simp [Op.isRollback] at hr
    | commit d => simp [Op.isRollback] at hr

theorem run_keeps_invariant (ops : List Op) :
    ∀ s s2 : MyDataInterface, Populated s → (∀ k e, s.dataset_ k = some e → e.id = k) →
      run s ops = some s2 →
      Populated s2 ∧ ∀ k e, s2.dataset_ k = some e → e.id = k := by
  induction ops with
  | nil =>
    intro s s2 hp hk h
    have : s = s2 := Option.some.inj h
    subst this
    exact ⟨hp, hk⟩
  | cons op ops ih =>
    intro s s2 hp hk h
    simp only [run, Option.bind_eq_some] at h
    obtain ⟨s1, h1, h2⟩ := h
    obtain ⟨hp1, hk1⟩ := step_keeps_invariant s s1 op hp hk h1
    exact ih s1 s2 hp1 hk1 h2

/-- C7 (as stated, refuted).  On the empty store of `main`,
`on_data_rollback_requested(1)` sets the count to `1` over an empty map,
which is not contiguous, and the call then has no result (`dump`
dereferences the null `dataset_[0]`): no contiguous store follows. -/
theorem contiguity_lost_by_rollback :
    ¬ Contiguous { mainStore 0 with data_cnt_ := 1 % UINT32_RANGE, changed_ := true } ∧
    ¬ ∃ s, run (mainStore 0) [Op.rollback 1] = some s ∧ Contiguous s := by
  constructor
  · intro h
    obtain ⟨e, he, -⟩ := h 0 (by decide)
    have h0 : (mainStore 0).dataset_ 0 = none := rfl
    simp only at he
    rw [h0] at he
    exact Option.noConfusion he
  · rintro ⟨s, hs, -⟩
    have h0 : run (mainStore 0) [Op.rollback 1] = none := rfl
    rw [h0] at hs
    exact Option.noConfusion hs

/-- C7 (amended).  Starting from the store built in `main`, after every finite
sequence of calls that completes (a rollback completes exactly when every
position below its target holds an entry that `dump` can print), every
`k < count` holds an entry
whose id is `k`; `on_data_get_requested(k)` returns that entry for
`k < count` and a null pointer for `k ≥ count`. -/
theorem contiguous_after_run (n : Nat) (ops : List Op) (s : MyDataInterface)
    (h : run (mainStore n) ops = some s) :
    Contiguous s ∧
    (∀ k, k < s.data_cnt_ → ∃ e s1, e.id = k ∧
      on_data_get_requested s k = some (some e, s1)) ∧
    (∀ k, k ≥ s.data_cnt_ → on_data_get_requested s k = some (none, s)) := by
  obtain ⟨hp, hk⟩ :=
    run_keeps_invariant ops (mainStore n) s (mainStore_populated n) (mainStore_keys n) h
  have hc : Contiguous s := by
    intro k hlt
    obtain ⟨e, he, -⟩ := (printable_iff _).mp (hp k hlt)
    exact ⟨e, he, hk k e he⟩
  refine ⟨hc, ?_, ?_⟩
  · intro k hlt
    obtain ⟨e, he, hid⟩ := hc k hlt
    exact ⟨e, { s with changed_ := false }, hid,
      by rw [on_data_get_requested_of_populated s k hp hlt, he]⟩
  · intro k hge
    simp [on_data_get_requested, hge]

/-- Witness of C7 (amended): from the two-entry store of `main`, a sequence
with every kind of call, a rollback below the count and a rollback back up
over positions still populated. -/
theorem contiguous_after_run_witness :
    ∃ s,
      run (mainStore 2)
        [Op.commitRequested ⟨2, 1, [99]⟩, Op.rollback 1, Op.get 0, Op.getLatest,
         Op.commit ⟨1, 2, [120]⟩, Op.rollback 3, Op.get 2] = some s ∧
      s.data_cnt_ = 3 ∧ Contiguous s := by
  obtain ⟨s, hs⟩ := Option.isSome_iff_exists.mp
    (show (run (mainStore 2)
        [Op.commitRequested ⟨2, 1, [99]⟩, Op.rollback 1, Op.get 0, Op.getLatest,
         Op.commit ⟨1, 2, [120]⟩, Op.rollback 3, Op.get 2]).isSome = true from rfl)
  have hc : (run (mainStore 2)
        [Op.commitRequested ⟨2, 1, [99]⟩, Op.rollback 1, Op.get 0, Op.getLatest,
         Op.commit ⟨1, 2, [120]⟩, Op.rollback 3, Op.get 2]).map (fun t => t.data_cnt_)
      = some 3 := rfl
  rw [hs] at hc
  exact ⟨s, hs, Option.some.inj hc, (contiguous_after_run 2 _ s hs).1⟩

/-! ## Terms along the log -/

open Raft

/-- C9.  An event that is not a key of the transition map leaves the state
where it is: `Handle` returns the state's own type and invokes no handler. -/
theorem Handle_not_admissible (s : Raft.State) (event : Event)
    (h : s.transition_map_ event = none) :
    s.Handle event = (s.type_, []) := by
  simp [Raft.State.Handle, h]

/-- Witness of C9: a state of type `kStandby` whose only key is `kStarted`,
handed `kTimedout`. -/
theorem Handle_not_admissible_witness :
    (Raft.State.mk .kStandby
        (fun ev => if ev = Event.kStarted then some .kFollower else none)).transition_map_
      Event.kTimedout = none ∧
    (Raft.State.mk .kStandby
        (fun ev => if ev = Event.kStarted then some .kFollower else none)).Handle
      Event.kTimedout = (StateType.kStandby, []) :=
  ⟨rfl, Handle_not_admissible _ Event.kTimedout rfl⟩

/-- C10 (as stated, refuted).  An event value outside the six enumerators that
is a key of the transition map reaches the `default:` branch: no handler
is invoked and the state's own type is returned, not the mapped one. -/
theorem Handle_invalid_key :
    (Raft.State.mk .kStandby
        (fun ev => if ev = Event.invalid 6 then some .kLeader else none)).transition_map_
      (Event.invalid 6) = some StateType.kLeader ∧
    (Raft.State.mk .kStandby
        (fun ev => if ev = Event.invalid 6 then some .kLeader else none)).Handle
      (Event.invalid 6) = (StateType.kStandby, []) :=
  ⟨rfl, rfl⟩

/-- C10 (amended).  For an event that is a key of the transition map and is
one of the six enumerators, `Handle` invokes exactly the handler paired
with it, once, and returns the state type the map assigns; for a key that
is none of the six it invokes no handler and returns the state's own type. -/
theorem Handle_admissible (s : Raft.State) (event : Event) (next : StateType)
    (h : s.transition_map_ event = some next) :
    (event = Event.kStarted → s.Handle event = (next, [Handler.OnStarted])) ∧
    (event = Event.kTimedout → s.Handle event = (next, [Handler.OnTimedout])) ∧
    (event = Event.kLeaderDiscovered →
      s.Handle event = (next, [Handler.OnLeaderDiscovered])) ∧
    (event = Event.kVoteReceived → s.Handle event = (next, [Handler.OnVoteReceived])) ∧
    (event = Event.kElected → s.Handle event = (next, [Handler.OnElected])) ∧
    (event = Event.kTerminated → s.Handle event = (next, [Handler.OnTerminated])) ∧
    (∀ v, event = Event.invalid v → s.Handle event = (s.type_, [])) := by
  refine ⟨?_, ?_, ?_, ?_, ?_, ?_, ?_⟩
  all_goals
    intros
    subst_vars
    simp [Raft.State.Handle, h]

/-- Witness of C10 (amended): a candidate-like state whose map sends `kElected`
to `kLeader`, handed `kElected`. -/
theorem Handle_admissible_witness :
    (Raft.State.mk .kCandidate
        (fun ev => if ev = Event.kElected then some .kLeader else none)).transition_map_
      Event.kElected = some StateType.kLeader ∧
    (Raft.State.mk .kCandidate
        (fun ev => if ev = Event.kElected then some .kLeader else none)).Handle
      Event.kElected = (StateType.kLeader, [Handler.OnElected]) :=
  ⟨rfl,
   (Handle_admissible
      (Raft.State.mk .kCandidate
        (fun ev => if ev = Event.kElected then some .kLeader else none))
      Event.kElected StateType.kLeader rfl).2.2.2.2.1 rfl⟩

/-! ## `NodeClusterImpl::Handle` -/

/-- C11 (as stated, refuted).  Notified of the role `kLeader`, the cluster node
invokes no callback at all, so not `OnActivated`. -/
theorem Handle_raft_leader_silent :
    NodeClusterImpl.Handle_raft Raft.StateType.kLeader = [] ∧
    LifecycleCallback.OnActivated ∉ NodeClusterImpl.Handle_raft Raft.StateType.kLeader := by
  decide

/-- C11 (amended).  Notified of a Raft role, whichever it is, the cluster node
invokes no lifecycle callback; the callbacks are invoked when it is
notified of a lifecycle state: `kActive` invokes `OnActivated`, `kInactive`
invokes `OnDeactivated` and `kStandby` invokes `OnStandby`. -/
theorem Handle_raft_invokes_nothing (state : Raft.StateType) :
    NodeClusterImpl.Handle_raft state = [] ∧
    NodeClusterImpl.Handle_lifecycle Lifecycle.StateType.kActive
      = [LifecycleCallback.OnActivated] ∧
    NodeClusterImpl.Handle_lifecycle Lifecycle.StateType.kInactive
      = [LifecycleCallback.OnDeactivated] ∧
    NodeClusterImpl.Handle_lifecycle Lifecycle.StateType.kStandby
      = [LifecycleCallback.OnStandby] := by
  refine ⟨?_, rfl, rfl, rfl⟩
  cases state <;> rfl

/-- C12.  Notified of a lifecycle state, the cluster node invokes exactly the
matching callback, once: `kStandby` invokes `OnStandby`, `kActive` invokes
`OnActivated`, `kInactive` invokes `OnDeactivated`; a value outside these
three invokes no callback. -/
theorem Handle_lifecycle_matching (state : Lifecycle.StateType) :
    (state = Lifecycle.StateType.kStandby →
      NodeClusterImpl.Handle_lifecycle state = [LifecycleCallback.OnStandby]) ∧
    (state = Lifecycle.StateType.kActive →
      NodeClusterImpl.Handle_lifecycle state = [LifecycleCallback.OnActivated]) ∧
    (state = Lifecycle.StateType.kInactive →
      NodeClusterImpl.Handle_lifecycle state = [LifecycleCallback.OnDeactivated]) ∧
    (∀ v, state = Lifecycle.StateType.invalid v →
      NodeClusterImpl.Handle_lifecycle state = []) := by
  refine ⟨?_, ?_, ?_, ?_⟩
  all_goals
    intros
    subst_vars
    rfl

/-- Instance of C12: the notification of `kActive`. -/
theorem Handle_lifecycle_matching_witness :
    NodeClusterImpl.Handle_lifecycle Lifecycle.StateType.kActive
      = [LifecycleCallback.OnActivated] :=
  (Handle_lifecycle_matching Lifecycle.StateType.kActive).2.1 rfl

/-! ## `on_data_get_requested()` without argument -/

theorem count_succ_mod_ne (c : Nat) : (c + 1) % UINT32_RANGE ≠ c := by
  unfold UINT32_RANGE
  omega

theorem on_data_get_requested_latest_eq (s : MyDataInterface) (h : s.data_cnt_ ≠ 0) :
    on_data_get_requested_latest s = on_data_get_requested s (s.data_cnt_ - 1) := by
  unfold on_data_get_requested_latest on_data_get_requested
  rw [if_neg h, if_neg (by omega)]
  cases hd : dump s with
  | none => rfl
  | some t =>
    simp only [Option.map_some']
    rw [(dump_eq_some s t hd).2.1]

/-- C13 (as stated, refuted).  Accepted at the largest count, an entry resets
the count to `0`, and `on_data_get_requested()` right after returns a null
pointer, not the entry. -/
theorem latest_after_commit_lost :
    ∃ s1, on_data_commit_requested fullStore ⟨4294967295, 0, [98]⟩ = some (true, s1) ∧
      (on_data_get_requested_latest s1).map Prod.fst = some none :=
  ⟨{ dataset_ := Function.update fullStore.dataset_ 4294967295 (some ⟨4294967295, 0, [98]⟩),
     data_cnt_ := 0, changed_ := false }, rfl, rfl⟩

/-- C13 (amended).  For every store state, `on_data_get_requested()` returns a
null pointer when the count is `0` and otherwise does exactly what
`on_data_get_requested(count - 1)` does; right after
`on_data_commit_requested(e)` has returned `true` from a count below
`2 ^ 32 - 1` it returns `e`. -/
theorem on_data_get_requested_latest_spec (s : MyDataInterface) :
    (s.data_cnt_ = 0 → on_data_get_requested_latest s = some (none, s)) ∧
    (s.data_cnt_ ≠ 0 →
      on_data_get_requested_latest s = on_data_get_requested s (s.data_cnt_ - 1)) ∧
    (∀ e s1, s.data_cnt_ + 1 < UINT32_RANGE →
      on_data_commit_requested s e = some (true, s1) →
      on_data_get_requested_latest s1 = some (some e, s1)) := by
  refine ⟨?_, on_data_get_requested_latest_eq s, ?_⟩
  · intro h
    simp [on_data_get_requested_latest, h]
  · intro e s1 hcnt hc
    obtain ⟨-, hds, hc1, hch, hp1⟩ := on_data_commit_requested_true s s1 e hc
    rw [Nat.mod_eq_of_lt hcnt] at hc1
    have hs1 : { s1 with changed_ := false } = s1 := by
      cases s1
      simp_all
    rw [on_data_get_requested_latest_eq s1 (by omega),
      on_data_get_requested_of_populated s1 _ hp1 (by omega), hs1, hds, hc1]
    simp

/-- Instance of C13 (amended): the two-entry store of `main`, before and after
accepting the entry with id `2`. -/
theorem on_data_get_requested_latest_spec_witness :
    on_data_get_requested_latest (mainStore 2) = on_data_get_requested (mainStore 2) 1 ∧
    ∃ s1, on_data_commit_requested (mainStore 2) ⟨2, 4, [99]⟩ = some (true, s1) ∧
      on_data_get_requested_latest s1 = some (some ⟨2, 4, [99]⟩, s1) :=
  ⟨(on_data_get_requested_latest_spec (mainStore 2)).2.1 (by decide),
   _, on_data_commit_requested_accept (mainStore 2) ⟨2, 4, [99]⟩ (mainStore_populated 2)
       (by decide) rfl,
   (on_data_get_requested_latest_spec (mainStore 2)).2.2 ⟨2, 4, [99]⟩ _ (by decide)
     (on_data_commit_requested_accept (mainStore 2) ⟨2, 4, [99]⟩ (mainStore_populated 2)
       (by decide) rfl)⟩

/-! ## Rollback followed by an append -/

/-- C15 (as stated, refuted).  With count `1` over an empty map,
`on_data_rollback_requested(1)` has no result (`dump` dereferences the
null `dataset_[0]`), so nothing is accepted after it; the same with count
`1` over an entry with an empty payload (`dump` reads its first byte).  At
the largest count the rollback to the count followed by the append is accepted but
leaves the count at `0` and the entry unreadable.  On the one-entry store
of `main`, after the rollback to `1` the append of the entry with id `1`
and an empty payload has no result (`dump` reads the first byte of the
empty payload). -/
theorem rollback_then_commit_fails :
    (1 ≤ holeStore.data_cnt_ ∧
      (on_data_rollback_requested holeStore 1).isNone = true) ∧
    (1 ≤ emptyPayloadStore.data_cnt_ ∧
      (on_data_rollback_requested emptyPayloadStore 1).isNone = true) ∧
    (4294967295 ≤ fullStore.data_cnt_ ∧
      ∃ s1 s2, on_data_rollback_requested fullStore 4294967295 = some s1 ∧
        on_data_commit_requested s1 ⟨4294967295, 0, [98]⟩ = some (true, s2) ∧
        s2.data_cnt_ ≠ 4294967295 + 1 ∧
        (on_data_get_requested s2 4294967295).map Prod.fst = some none) ∧
    (1 ≤ (mainStore 1).data_cnt_ ∧ (⟨1, 0, []⟩ : Data).id = 1 ∧
      ∃ s1, on_data_rollback_requested (mainStore 1) 1 = some s1 ∧
        on_data_commit_requested s1 ⟨1, 0, []⟩ = none) := by
  refine ⟨⟨by decide, rfl⟩, ⟨by decide, rfl⟩, ⟨by decide, ?_⟩, by decide, rfl, ?_⟩
  · refine ⟨{ fullStore with data_cnt_ := 4294967295 % UINT32_RANGE, changed_ := false },
      { dataset_ := Function.update fullStore.dataset_ 4294967295
          (some ⟨4294967295, 0, [98]⟩),
        data_cnt_ := 0, changed_ := false }, ?_, rfl, by decide, rfl⟩
    exact dump_of_populated
      { fullStore with data_cnt_ := 4294967295 % UINT32_RANGE, changed_ := true }
      (fun i _ => rfl)
  · exact ⟨{ mainStore 1 with data_cnt_ := 1 % UINT32_RANGE, changed_ := false }, rfl, rfl⟩

/-- C15 (amended).  In a store whose positions below the (32-bit) count all
hold an entry with a non-empty payload, for every `id ≤ count` and every
entry `e` with `e.id = id` and a non-empty payload,
`on_data_rollback_requested(id)` completes and
`on_data_commit_requested(e)` after it returns `true`; if
`id < 2 ^ 32 - 1`, the count is then `id + 1` and
`on_data_get_requested(id)` returns `e`. -/
theorem rollback_then_commit (s : MyDataInterface) (id : Nat) (e : Data)
    (hp : Populated s) (hty : s.data_cnt_ < UINT32_RANGE) (hle : id ≤ s.data_cnt_)
    (he : e.id = id) (hpay : e.data ≠ []) :
    ∃ s1 s2, on_data_rollback_requested s id = some s1 ∧
      on_data_commit_requested s1 e = some (true, s2) ∧
      (id + 1 < UINT32_RANGE →
        s2.data_cnt_ = id + 1 ∧
        ∃ s3, on_data_get_requested s2 id = some (some e, s3)) := by
  have hmod : id % UINT32_RANGE = id := Nat.mod_eq_of_lt (by omega)
  obtain ⟨s1, h1⟩ := (on_data_rollback_requested_completes s id).mpr
    (fun i hi => hp i (by rw [hmod] at hi; omega))
  obtain ⟨-, hc1, -, hp1⟩ := on_data_rollback_requested_eq_some s s1 id h1
  rw [hmod] at hc1
  have hacc := on_data_commit_requested_accept s1 e hp1 hpay (by rw [he, hc1])
  have hp2 : Populated
      { dataset_ := Function.update s1.dataset_ s1.data_cnt_ (some e),
        data_cnt_ := (s1.data_cnt_ + 1) % UINT32_RANGE,
        changed_ := false } := populated_after_store s1 e hp1 hpay
  refine ⟨s1,
    { dataset_ := Function.update s1.dataset_ s1.data_cnt_ (some e),
      data_cnt_ := (s1.data_cnt_ + 1) % UINT32_RANGE,
      changed_ := false }, h1, hacc, ?_⟩
  intro hid
  have hcnt2 : (s1.data_cnt_ + 1) % UINT32_RANGE = id + 1 := by
    rw [hc1, Nat.mod_eq_of_lt hid]
  refine ⟨hcnt2,
    { dataset_ := Function.update s1.dataset_ s1.data_cnt_ (some e),
      data_cnt_ := (s1.data_cnt_ + 1) % UINT32_RANGE,
      changed_ := false }, ?_⟩
  have hlt : id < (s1.data_cnt_ + 1) % UINT32_RANGE := by
    rw [hcnt2]
    omega
  rw [on_data_get_requested_of_populated _ id hp2 hlt]
  subst hc1
  simp

/-- Witness of C15 (amended): the three-entry store of `main` rolled back to
length `1`, then offered a new entry with id `1`. -/
theorem rollback_then_commit_witness :
    (Populated (mainStore 3) ∧ (mainStore 3).data_cnt_ < UINT32_RANGE ∧
      1 ≤ (mainStore 3).data_cnt_ ∧
      (⟨1, 9, [120]⟩ : Data).id = 1 ∧ (⟨1, 9, [120]⟩ : Data).data ≠ []) ∧
    ∃ s1 s2, on_data_rollback_requested (mainStore 3) 1 = some s1 ∧
      on_data_commit_requested s1 ⟨1, 9, [120]⟩ = some (true, s2) ∧
      s2.data_cnt_ = 1 + 1 ∧
      ∃ s3, on_data_get_requested s2 1 = some (some ⟨1, 9, [120]⟩, s3) := by
  obtain ⟨s1, s2, h1, h2, h3⟩ :=
    rollback_then_commit (mainStore 3) 1 ⟨1, 9, [120]⟩ (mainStore_populated 3)
      (by decide) (by decide) rfl (by decide)
  obtain ⟨hc, hg⟩ := h3 (by decide)
  exact ⟨⟨mainStore_populated 3, by decide, by decide, rfl, by decide⟩,
    s1, s2, h1, h2, hc, hg⟩

/-! ## `commit` and `on_data_commit_requested` -/

/-- C17.  On every store and entry, `commit` leaves exactly the store that
`on_data_commit_requested` leaves (same entries, same count, also the
same absence of a result), and `commit` changes the count or the entries
exactly when `on_data_commit_requested` returns `true`. -/
theorem commit_matches_commit_requested (s : MyDataInterface) (e : Data) :
    commit s e = (on_data_commit_requested s e).map Prod.snd ∧
    ((∃ s1, commit s e = some s1 ∧
        (s1.data_cnt_ ≠ s.data_cnt_ ∨ s1.dataset_ ≠ s.dataset_)) ↔
      ∃ s1, on_data_commit_requested s e = some (true, s1)) := by
  have heq : commit s e = (on_data_commit_requested s e).map Prod.snd := by
    unfold commit on_data_commit_requested
    by_cases hid : e.id = s.data_cnt_
    · simp [hid, Option.map_map, Function.comp_def]
    · simp [hid]
  refine ⟨heq, ?_, ?_⟩
  · rintro ⟨s1, h1, hch⟩
    by_cases hid : e.id = s.data_cnt_
    · refine ⟨s1, ?_⟩
      unfold commit at h1
      simp only [hid, ne_eq, not_true_eq_false, if_false] at h1
      unfold on_data_commit_requested
      simp only [hid, ne_eq, not_true_eq_false, if_false, h1, Option.map_some']
    · have : commit s e = some s := by simp [commit, hid]
      rw [this] at h1
      have hs : s = s1 := Option.some.inj h1
      subst hs
      rcases hch with h | h <;> exact absurd rfl h
  · rintro ⟨s1, h1⟩
    refine ⟨s1, by rw [heq, h1]; rfl, Or.inl ?_⟩
    rw [(on_data_commit_requested_true s s1 e h1).2.2.1]
    exact count_succ_mod_ne s.data_cnt_

/-- Instance of C17: both paths on the one-entry store of `main`, for an entry
that is accepted. -/
theorem commit_matches_commit_requested_witness :
    commit (mainStore 1) ⟨1, 0, [98]⟩ =
      (on_data_commit_requested (mainStore 1) ⟨1, 0, [98]⟩).map Prod.snd ∧
    ∃ s1, commit (mainStore 1) ⟨1, 0, [98]⟩ = some s1 ∧
      (s1.data_cnt_ ≠ (mainStore 1).data_cnt_ ∨ s1.dataset_ ≠ (mainStore 1).dataset_) :=
  ⟨(commit_matches_commit_requested (mainStore 1) ⟨1, 0, [98]⟩).1,
   (commit_matches_commit_requested (mainStore 1) ⟨1, 0, [98]⟩).2.mpr
     ⟨_, on_data_commit_requested_accept (mainStore 1) ⟨1, 0, [98]⟩
       (mainStore_populated 1) (by decide) rfl⟩⟩

/-- C18.  Offering the same entry a second time, through either path, leaves
the store the first call left: the two-call sequences end exactly where
the single call ends, and whenever the first call returns, the second
`on_data_commit_requested(e)` returns `false` and `commit(e)` stores
nothing. -/
theorem commit_twice_same_as_once (s : MyDataInterface) (e : Data) :
    run s [Op.commitRequested e, Op.commitRequested e] = run s [Op.commitRequested e] ∧
    run s [Op.commitRequested e, Op.commit e] = run s [Op.commitRequested e] ∧
    (∀ b s1, on_data_commit_requested s e = some (b, s1) →
      on_data_commit_requested s1 e = some (false, s1) ∧ commit s1 e = some s1) := by
  have hsecond : ∀ b s1, on_data_commit_requested s e = some (b, s1) →
      e.id ≠ s1.data_cnt_ := by
    intro b s1 h
    cases b with
    | true =>
      obtain ⟨hid, -, hc, -, -⟩ := on_data_commit_requested_true s s1 e h
      rw [hc, hid]
      exact (count_succ_mod_ne s.data_cnt_).symm
    | false =>
      unfold on_data_commit_requested at h
      by_cases hid : e.id = s.data_cnt_
      · simp [hid] at h
      · simp only [ne_eq, hid, not_false_eq_true, if_true, Option.some.injEq,
          Prod.mk.injEq, true_and] at h
        rw [← h]
        exact hid
  have hrej : ∀ b s1, on_data_commit_requested s e = some (b, s1) →
      on_data_commit_requested s1 e = some (false, s1) ∧ commit s1 e = some s1 := by
    intro b s1 h
    have hne := hsecond b s1 h
    exact ⟨by simp [on_data_commit_requested, hne], by simp [commit, hne]⟩
  refine ⟨?_, ?_, hrej⟩
  · cases h : on_data_commit_requested s e with
    | none => simp [run, step, h]
    | some r =>
      obtain ⟨b, s1⟩ := r
      simp [run, step, h, (hrej b s1 h).1]
  · cases h : on_data_commit_requested s e with
    | none => simp [run, step, h]
    | some r =>
      obtain ⟨b, s1⟩ := r
      simp [run, step, h, (hrej b s1 h).2]

/-- Instance of C18: the entry with id `1` offered twice to the one-entry
store of `main`; the first call is accepted, the second refused. -/
theorem commit_twice_same_as_once_witness :
    run (mainStore 1) [Op.commitRequested ⟨1, 0, [98]⟩, Op.commitRequested ⟨1, 0, [98]⟩]
      = run (mainStore 1) [Op.commitRequested ⟨1, 0, [98]⟩] ∧
    ∃ s1, on_data_commit_requested (mainStore 1) ⟨1, 0, [98]⟩ = some (true, s1) ∧
      on_data_commit_requested s1 ⟨1, 0, [98]⟩ = some (false, s1) ∧
      commit s1 ⟨1, 0, [98]⟩ = some s1 :=
  ⟨(commit_twice_same_as_once (mainStore 1) ⟨1, 0, [98]⟩).1,
   _, on_data_commit_requested_accept (mainStore 1) ⟨1, 0, [98]⟩ (mainStore_populated 1)
       (by decide) rfl,
   (commit_twice_same_as_once (mainStore 1) ⟨1, 0, [98]⟩).2.2 true _
     (on_data_commit_requested_accept (mainStore 1) ⟨1, 0, [98]⟩ (mainStore_populated 1)
       (by decide) rfl)⟩

/-! ## `StateMachine::initialize_clients` -/

theorem initialize_clients_lists (ids : List Nat) :
    ∀ ctx : Raft.Context,
      (StateMachine.initialize_clients ctx ids).node_id_ = ctx.node_id_ ∧
      (StateMachine.initialize_clients ctx ids).append_entries_clients_ =
        ctx.append_entries_clients_ ++
          (ids.filter (fun id => decide (id ≠ ctx.node_id_))).map
            (fun id => ⟨id, ServiceName.kAppendEntriesServiceName⟩) ∧
      (StateMachine.initialize_clients ctx ids).request_vote_clients_ =
        ctx.request_vote_clients_ ++
          (ids.filter (fun id => decide (id ≠ ctx.node_id_))).map
            (fun id => ⟨id, ServiceName.kRequestVoteServiceName⟩) := by
  induction ids with
  | nil =>
    intro ctx
    simp [StateMachine.initialize_clients]
  | cons id ids ih =>
    intro ctx
    by_cases h : id = ctx.node_id_
    · simp only [StateMachine.initialize_clients, h, if_true]
      obtain ⟨h1, h2, h3⟩ := ih ctx
      refine ⟨h1, ?_, ?_⟩
      · rw [h2]
        simp
      · rw [h3]
        simp
    · simp only [StateMachine.initialize_clients, h, if_false]
      obtain ⟨h1, h2, h3⟩ := ih
        { ctx with
          node_services_ :=
            ctx.node_services_ ++
              [⟨id, .kAppendEntriesServiceName⟩, ⟨id, .kRequestVoteServiceName⟩],
          append_entries_clients_ :=
            ctx.append_entries_clients_ ++ [⟨id, .kAppendEntriesServiceName⟩],
          request_vote_clients_ :=
            ctx.request_vote_clients_ ++ [⟨id, .kRequestVoteServiceName⟩] }
      refine ⟨h1, ?_, ?_⟩
      · rw [h2]
        simp [h]
      · rw [h3]
        simp [h]

theorem count_filter_map_client (ids : List Nat) (own id : Nat) (sv : ServiceName) :
    ((ids.filter (fun k => decide (k ≠ own))).map (fun k => (⟨k, sv⟩ : Client))).count ⟨id, sv⟩
      = if id = own then 0 else ids.count id := by
  have hinj : Function.Injective (fun k => (⟨k, sv⟩ : Client)) := by
    intro x y hxy
    exact congrArg Client.node_id hxy
  have hcm := List.count_map_of_injective (ids.filter (fun k => decide (k ≠ own)))
    (fun k => (⟨k, sv⟩ : Client)) hinj id
  simp only at hcm
  rw [hcm]
  by_cases h : id = own
  · rw [if_pos h, List.count_eq_zero]
    intro hm
    have := (List.mem_filter.mp hm).2
    simp [h] at this
  · rw [if_neg h]
    exact List.count_filter (by simpa using h)

/-- C16 (as stated, refuted).  For the list `3, 3` and own id `1`, two
AppendEntries clients and two RequestVote clients are created for id `3`,
not exactly one of each. -/
theorem initialize_clients_repeated_id :
    (StateMachine.initialize_clients (Context.fresh 1) [3, 3]).append_entries_clients_.count
        ⟨3, ServiceName.kAppendEntriesServiceName⟩ = 2 ∧
    (StateMachine.initialize_clients (Context.fresh 1) [3, 3]).request_vote_clients_.count
        ⟨3, ServiceName.kRequestVoteServiceName⟩ = 2 := by
  decide

/-- C16 (amended).  Started with empty client lists, `initialize_clients`
creates one AppendEntries client and one RequestVote client per listing
of an id different from the own id, in list order, and none for the own
id; so for a list without repetition it creates exactly one of each for
every listed id different from the own id. -/
theorem initialize_clients_spec (ids : List Nat) (own : Nat) :
    (StateMachine.initialize_clients (Context.fresh own) ids).append_entries_clients_ =
      (ids.filter (fun id => decide (id ≠ own))).map
        (fun id => ⟨id, ServiceName.kAppendEntriesServiceName⟩) ∧
    (StateMachine.initialize_clients (Context.fresh own) ids).request_vote_clients_ =
      (ids.filter (fun id => decide (id ≠ own))).map
        (fun id => ⟨id, ServiceName.kRequestVoteServiceName⟩) ∧
    (∀ c, c ∈ (StateMachine.initialize_clients (Context.fresh own) ids).append_entries_clients_
        ∨ c ∈ (StateMachine.initialize_clients (Context.fresh own) ids).request_vote_clients_ →
      c.node_id ≠ own) ∧
    (ids.Nodup → ∀ id, id ∈ ids → id ≠ own →
      (StateMachine.initialize_clients (Context.fresh own) ids).append_entries_clients_.count
          ⟨id, ServiceName.kAppendEntriesServiceName⟩ = 1 ∧
      (StateMachine.initialize_clients (Context.fresh own) ids).request_vote_clients_.count
          ⟨id, ServiceName.kRequestVoteServiceName⟩ = 1) := by
  obtain ⟨-, h2, h3⟩ := initialize_clients_lists ids (Context.fresh own)
  have hown : (Context.fresh own).node_id_ = own := rfl
  have ha : (Context.fresh own).append_entries_clients_ = [] := rfl
  have hv : (Context.fresh own).request_vote_clients_ = [] := rfl
  rw [hown, ha, List.nil_append] at h2
  rw [hown, hv, List.nil_append] at h3
  refine ⟨h2, h3, ?_, ?_⟩
  · intro c hc
    rw [h2, h3, List.mem_map, List.mem_map] at hc
    rcases hc with ⟨id, hid, rfl⟩ | ⟨id, hid, rfl⟩
    · simpa using (List.mem_filter.mp hid).2
    · simpa using (List.mem_filter.mp hid).2
  · intro hnd id hmem hne
    rw [h2, h3, count_filter_map_client, count_filter_map_client, if_neg hne]
    exact ⟨List.count_eq_one_of_mem hnd hmem, List.count_eq_one_of_mem hnd hmem⟩

/-- Instance of C16 (amended): node `2` of the cluster `1, 2, 3, 4` of `main`. -/
theorem initialize_clients_spec_witness :
    (StateMachine.initialize_clients (Context.fresh 2) [1, 2, 3, 4]).append_entries_clients_ =
      [⟨1, ServiceName.kAppendEntriesServiceName⟩, ⟨3, ServiceName.kAppendEntriesServiceName⟩,
       ⟨4, ServiceName.kAppendEntriesServiceName⟩] ∧
    (StateMachine.initialize_clients (Context.fresh 2) [1, 2, 3, 4]).request_vote_clients_ =
      [⟨1, ServiceName.kRequestVoteServiceName⟩, ⟨3, ServiceName.kRequestVoteServiceName⟩,
       ⟨4, ServiceName.kRequestVoteServiceName⟩] ∧
    ((StateMachine.initialize_clients (Context.fresh 2) [1, 2, 3, 4]).append_entries_clients_.count
          ⟨3, ServiceName.kAppendEntriesServiceName⟩ = 1 ∧
      (StateMachine.initialize_clients (Context.fresh 2) [1, 2, 3, 4]).request_vote_clients_.count
          ⟨3, ServiceName.kRequestVoteServiceName⟩ = 1) :=
  ⟨(initialize_clients_spec [1, 2, 3, 4] 2).1, (initialize_clients_spec [1, 2, 3, 4] 2).2.1,
   (initialize_clients_spec [1, 2, 3, 4] 2).2.2.2 (by decide) 3 (by decide) (by decide)⟩

end Foros
